import Mathlib

set_option maxHeartbeats 1600000

/-!
Shallow embedding of the authenticated proxy request pipeline of the
maps-explorer application: the request validation helpers
(app/lib/validation.ts), the token cache and client-credentials exchange
(app/lib/auth/token.ts) and the proxy POST handler (app/api/maps/route.ts).

JavaScript strings are modelled as Lean String (ASCII-faithful: the
Unicode-specific parts of trim/toUpperCase do not matter for any property
proved here); a JavaScript value that may be undefined or null is modelled
as an Option.  The impure parts (Date.now(), fetch outcomes, the parse
result of JSON bodies) are passed in explicitly as "world" parameters and
the network calls the code would issue are recorded in the result, so that
call-count properties are expressible.
-/

namespace MapsProxy

/-! ### JavaScript primitives -/

/-- Truthiness of a possibly-absent JavaScript string: undefined/null and
the empty string are falsy. -/
def jsTruthy : Option String → Bool
  | some s => s != ""
  | none => false

/-- JavaScript `a || dflt` for a possibly-absent string `a`. -/
def jsOrStr (v : Option String) (dflt : String) : String :=
  match v with
  | some s => if s = "" then dflt else s
  | none => dflt

/-- JavaScript `String.prototype.includes` (substring containment). -/
def jsIncludes (s target : String) : Bool := decide (target.toList <:+: s.toList)

/-- JavaScript `String.prototype.startsWith`. -/
def jsStartsWith (s target : String) : Bool := decide (target.toList <+: s.toList)

/-- JavaScript `String.prototype.toUpperCase`, ASCII fragment. -/
def jsUpper (s : String) : String := (s.toList.map Char.toUpper).asString

/-- The whitespace characters removed by `String.prototype.trim`
(ASCII fragment of the Unicode white-space class). -/
def isJsSpace (c : Char) : Bool :=
  c = ' ' || c = '\t' || c = '\n' || c = '\r' || c = '\x0b' || c = '\x0c'

/-- `s.trim()` on the character list: drop whitespace from both ends. -/
def trimChars (cs : List Char) : List Char :=
  ((cs.dropWhile isJsSpace).reverse.dropWhile isJsSpace).reverse

/-! ### app/lib/validation.ts -/

/-- `normalizePath`: `path.trim().replace(/^\/+/, "")` — trim, then strip
every leading slash. -/
def normalizePath (s : String) : String :=
  ((trimChars s.toList).dropWhile (fun c => c == '/')).asString

/-- `isPathSafe`: re-normalizes, then rejects the empty path, a path that
starts with "http" or contains "://", and a path containing "..". -/
def isPathSafe (path : String) : Bool :=
  if normalizePath path = "" then false
  else if jsStartsWith (normalizePath path) "http" ||
          jsIncludes (normalizePath path) "://" then false
  else if jsIncludes (normalizePath path) ".." then false
  else true

/-- Hex digit used by percent-encoding (uppercase, as URLSearchParams). -/
def hexDigit (n : Nat) : Char :=
  if n < 10 then Char.ofNat (48 + n) else Char.ofNat (55 + n)

/-- Percent-encode one byte (given as a Nat below 256). -/
def percentByte (b : Nat) : List Char :=
  ['%', hexDigit (b / 16), hexDigit (b % 16)]

/-- Is the byte kept verbatim by application/x-www-form-urlencoded
serialization (A-Z, a-z, 0-9, `*`, `-`, `.`, `_`)? -/
def isFormSafeByte (b : Nat) : Bool :=
  (65 ≤ b && b ≤ 90) || (97 ≤ b && b ≤ 122) ||
  (48 ≤ b && b ≤ 57) || b = 42 || b = 45 || b = 46 || b = 95

/-- The UTF-8 bytes of one character. -/
def charUtf8 (c : Char) : List Nat :=
  let n := c.toNat
  if n < 128 then [n]
  else if n < 2048 then [192 + n / 64, 128 + n % 64]
  else if n < 65536 then [224 + n / 4096, 128 + (n / 64) % 64, 128 + n % 64]
  else [240 + n / 262144, 128 + (n / 4096) % 64, 128 + (n / 64) % 64, 128 + n % 64]

/-- application/x-www-form-urlencoded serialization of one string, as
performed by `URLSearchParams.toString()`: UTF-8 bytes, space becomes `+`,
safe bytes kept, everything else percent-encoded. -/
def formEncode (s : String) : String :=
  ((s.toList.flatMap charUtf8).foldl
    (fun acc b =>
      if b = 32 then acc ++ ['+']
      else if isFormSafeByte b then acc ++ [Char.ofNat b]
      else acc ++ percentByte b) []).asString

/-- `URLSearchParams.set`: replace the value of an existing key in place,
else append the pair. -/
def uspSet (l : List (String × String)) (k v : String) : List (String × String) :=
  if l.any (fun kv => kv.1 = k) then
    l.map (fun kv => if kv.1 = k then (k, v) else kv)
  else l ++ [(k, v)]

/-- `buildQueryString`: iterate the entries of `params` in order, skip
null/undefined values, `set` each pair, then serialize as
`k=v` pairs joined with `&`.  A value of `none` models the
`value === undefined || value === null` guard of the source. -/
def buildQueryString (params : List (String × Option String)) : String :=
  let pairs := params.foldl
    (fun acc kv =>
      match kv.2 with
      | none => acc
      | some v => uspSet acc kv.1 v) []
  String.intercalate "&" (pairs.map (fun kv => formEncode kv.1 ++ "=" ++ formEncode kv.2))

/-! ### Model of the WHATWG URL parser, restricted to the shape the route
needs: an absolute https URL `https://host[/path][?query][#fragment]`.
The route only distinguishes (a) parse failure or a non-https scheme,
(b) a non-empty query or fragment, and (c) the normalized
`origin + pathname`; a non-https parse success and a parse failure are
collapsed into `none` because the route maps both to the same
`invalid_base_url` rejection. -/

structure UrlParts where
  origin : String
  pathname : String
  search : String
  hash : String
deriving DecidableEq

def parseHttpsUrl (s : String) : Option UrlParts :=
  if jsStartsWith s "https://" then
    let rest := (s.toList.drop 8)
    let host := rest.takeWhile (fun c => !(c == '/') && !(c == '?') && !(c == '#'))
    if host.isEmpty then none
    else
      let tail1 := rest.drop host.length
      let path := tail1.takeWhile (fun c => !(c == '?') && !(c == '#'))
      let tail2 := tail1.drop path.length
      let search := tail2.takeWhile (fun c => !(c == '#'))
      let frag := tail2.drop search.length
      some { origin := "https://" ++ host.asString,
             pathname := if path.isEmpty then "/" else path.asString,
             search := search.asString,
             hash := frag.asString }
  else none

/-- `replace(/\/$/, "")`: strip one trailing slash. -/
def stripOneTrailingSlash (s : String) : String :=
  match s.toList.reverse with
  | '/' :: rest => rest.reverse.asString
  | _ => s

/-- The base-URL normalization of the route: parse, require https (folded
into the parser model), require empty query and fragment, and return
`origin + pathname` with one trailing slash stripped. -/
def routeNormalizeBase (baseUrl : String) : Option String :=
  match parseHttpsUrl baseUrl with
  | none => none
  | some u =>
    if u.search != "" || u.hash != "" then none
    else some (stripOneTrailingSlash (u.origin ++ u.pathname))

/-! ### Process environment and JSON values -/

/-- The environment variables read by the pipeline. `none` models an
unset variable. -/
structure Env where
  azureMapsBaseUrl : Option String
  azureMapsKey : Option String
  azureMapsClientId : Option String
  azureTenantId : Option String
  azureClientId : Option String
  azureClientSecret : Option String
  azureMapsScope : Option String
deriving DecidableEq

/-- A JSON value, used for request and response bodies.  The route never
inspects the inside of an upstream body, so serialization is kept
abstract (a forwarded body is recorded as the value itself). -/
inductive JsonVal where
  | jnull
  | jbool (b : Bool)
  | jnum (n : Int)
  | jstr (s : String)
  | jarr (elems : List JsonVal)
  | jobj (fields : List (String × JsonVal))

/-- The JSON object carrying only a `message` field, the shape of every
locally synthesized body in the route. -/
def msgObj (m : String) : JsonVal := .jobj [("message", .jstr m)]

/-- JavaScript truthiness of a JSON value (`payload.body ? ... : undefined`). -/
def jsTruthyJson : JsonVal → Bool
  | .jnull => false
  | .jbool b => b
  | .jnum n => n != 0
  | .jstr s => s != ""
  | .jarr _ => true
  | .jobj _ => true

/-! ### app/lib/auth/token.ts -/

/-- The single-slot module-level token cache entry.  Times are epoch
milliseconds. -/
structure CachedToken where
  accessToken : String
  expiresAt : Int
deriving DecidableEq

/-- Outcome of the (single) token-exchange fetch, supplied by the world:
transport rejection, non-ok HTTP response (`!response.ok`), a success
whose body fails `response.json()`, or a parsed success payload. -/
inductive ExchangeOutcome where
  | transportError (message : String)
  | httpError (status : Nat) (text : String)
  | parseError (message : String)
  | success (access_token : String) (expires_in : Int)
deriving DecidableEq

/-- The impure inputs of one `getMapsAccessToken` call: `Date.now()` at
the cache check, `Date.now()` after the exchange response (used for the
stored expiry), and the exchange outcome the network would deliver. -/
structure TokenWorld where
  nowCheck : Int
  nowWrite : Int
  outcome : ExchangeOutcome
deriving DecidableEq

deriving instance DecidableEq for Except

/-- Result of `getMapsAccessToken`: the returned token or thrown error
message, the cache slot after the call, and how many exchange requests
went on the wire. -/
structure TokenResult where
  result : Except String String
  cache : Option CachedToken
  exchangeCalls : Nat
deriving DecidableEq

/-- `getRequiredEnv`: throw `missing_<name>` when the variable is unset
or empty (JavaScript truthiness). -/
def getRequiredEnv (name : String) (value : Option String) : Except String String :=
  match value with
  | some v => if v = "" then .error ("missing_" ++ name) else .ok v
  | none => .error ("missing_" ++ name)

/-- The default token scope (`AZURE_MAPS_SCOPE ?? ".default" scope`). -/
def tokenScope (env : Env) : String :=
  env.azureMapsScope.getD "https://atlas.microsoft.com/.default"

/-- The tail of `getMapsAccessToken` past the cache check: require the
tenant ID, then client ID and client secret, then perform exactly one
exchange; only a parsed success overwrites the cache. -/
def tokenExchange (env : Env) (cache : Option CachedToken) (w : TokenWorld) : TokenResult :=
  match getRequiredEnv "AZURE_TENANT_ID" env.azureTenantId with
  | .error m => ⟨.error m, cache, 0⟩
  | .ok _ =>
    if !jsTruthy env.azureClientId || !jsTruthy env.azureClientSecret then
      ⟨.error "missing_client_credentials", cache, 0⟩
    else
      match w.outcome with
      | .transportError m => ⟨.error m, cache, 1⟩
      | .httpError status text =>
        ⟨.error ("token_error:" ++ toString status ++ ":" ++ text), cache, 1⟩
      | .parseError m => ⟨.error m, cache, 1⟩
      | .success tok exp =>
        ⟨.ok tok, some ⟨tok, w.nowWrite + exp * 1000⟩, 1⟩

/-- `getMapsAccessToken`: serve the cached token when it expires more
than 60 seconds from now, else run the exchange. -/
def getMapsAccessToken (env : Env) (cache : Option CachedToken) (w : TokenWorld) : TokenResult :=
  match cache with
  | some t =>
    if t.expiresAt > w.nowCheck + 60000 then ⟨.ok t.accessToken, some t, 0⟩
    else tokenExchange env cache w
  | none => tokenExchange env cache w

/-! ### app/api/maps/route.ts -/

/-- The untrusted request payload (`RequestShape`), field by field as the
route reads it; `auth?.apiKey` and `auth?.clientId` are flattened since
optional chaining collapses a missing `auth` and a missing field. -/
structure RequestShape where
  path : Option String
  params : Option (List (String × Option String))
  method : Option String
  baseUrl : Option String
  body : Option JsonVal
  authApiKey : Option String
  authClientId : Option String

/-- `meta` of the response envelope. -/
structure ApiResponseMeta where
  status : Nat
  statusText : String
  headers : List (String × String)
  durationMs : Int
  url : String
deriving DecidableEq

/-- The response envelope. -/
structure ApiResponse where
  meta : ApiResponseMeta
  body : JsonVal
  raw : String
  errorCode : Option String

/-- The outbound request the route hands to `fetch`, recorded for
verification; the body is kept as the JSON value that would be
serialized. -/
structure ForwardRequest where
  url : String
  method : String
  headers : List (String × String)
  body : Option JsonVal

/-- Outcome of the upstream `fetch`, supplied by the world: a response
(status, statusText, headers, body text, the result of attempting
`JSON.parse` on that text, elapsed milliseconds) or a rejection
(error message, whether it was the 20s abort, elapsed milliseconds). -/
inductive ForwardOutcome where
  | response (status : Nat) (statusText : String) (headers : List (String × String))
      (rawText : String) (parsed : Option JsonVal) (elapsedMs : Int)
  | failure (message : String) (isTimeout : Bool) (elapsedMs : Int)

/-- Runtime constraint on a forward outcome: the abort timer cannot fire
before the 20 000 ms timeout has elapsed. -/
def ForwardOutcome.wf : ForwardOutcome → Prop
  | .response _ _ _ _ _ e => e ≥ 0
  | .failure _ tm e => e ≥ 0 ∧ (tm = true → e ≥ 20000)

/-- Everything the route run produces: the envelope, the HTTP status of
the NextResponse, the token-cache slot after the call, and the recorded
network activity (exchange call count, the forwarded request if the
upstream fetch was issued, and the upstream status if the upstream
answered). -/
structure RouteResult where
  response : ApiResponse
  httpStatus : Nat
  cacheAfter : Option CachedToken
  exchangeCalls : Nat
  forwardRequest : Option ForwardRequest
  upstreamStatus : Option Nat

/-- A locally synthesized rejection envelope (`durationMs` 0). -/
def rejection (status : Nat) (statusText message code url : String) : ApiResponse :=
  { meta := { status := status, statusText := statusText, headers := [],
              durationMs := 0, url := url },
    body := msgObj message, raw := "", errorCode := some code }

/-- The curated response-header allow-list. -/
def SAFE_HEADERS : List String :=
  ["content-type", "x-ms-request-id", "x-ms-correlation-request-id",
   "x-ms-azuremaps-tracking-id"]

/-- Case-insensitive `Headers.get`. -/
def headerGet (hs : List (String × String)) (name : String) : Option String :=
  (hs.find? (fun kv => (kv.1.toList.map Char.toLower) = (name.toList.map Char.toLower))).map
    (fun kv => kv.2)

/-- The `SAFE_HEADERS.reduce` step: keep a safe header when present and
truthy. -/
def curateHeaders (hs : List (String × String)) : List (String × String) :=
  SAFE_HEADERS.foldl
    (fun acc key =>
      match headerGet hs key with
      | some v => if v != "" then acc ++ [(key, v)] else acc
      | none => acc) []

/-- `payload.body ? JSON.stringify(payload.body) : undefined` — the body
is sent only when truthy. -/
def jsRequestBody (b : Option JsonVal) : Option JsonVal :=
  match b with
  | some v => if jsTruthyJson v then some v else none
  | none => none

/-- The methods accepted by the route. -/
def allowedMethods : List String := ["GET", "POST", "PUT", "PATCH", "DELETE"]

/-- The fetch-and-envelope tail of the route, after credentials were
resolved: issue the upstream call and wrap its outcome. -/
def forwardStep (url method : String) (authHeaders : List (String × String))
    (body : Option JsonVal) (cache : Option CachedToken) (exCalls : Nat)
    (fo : ForwardOutcome) : RouteResult :=
  let requestBody := jsRequestBody body
  let reqHeaders := authHeaders ++
    (if requestBody.isSome then [("content-type", "application/json")] else [])
  let freq : ForwardRequest := ⟨url, method, reqHeaders, requestBody⟩
  match fo with
  | .response st stx hdrs rawText parsed elapsed =>
    let contentType := (headerGet hdrs "content-type").getD ""
    let respBody : JsonVal :=
      if jsIncludes contentType "application/json" then
        match parsed with
        | some v => v
        | none => .jstr rawText
      else .jstr rawText
    ⟨{ meta := { status := st, statusText := stx, headers := curateHeaders hdrs,
                 durationMs := elapsed, url := url },
       body := respBody, raw := rawText, errorCode := none },
     st, cache, exCalls, some freq, some st⟩
  | .failure m _ elapsed =>
    ⟨{ meta := { status := 502, statusText := "Request Failed", headers := [],
                 durationMs := elapsed, url := url },
       body := msgObj m, raw := "", errorCode := some "request_failed" },
     502, cache, exCalls, some freq, none⟩

/-- The missing_maps_client_id rejection envelope; unlike the 400-class
rejections it carries the already-constructed url. -/
def rejectionClientId (url : String) : ApiResponse :=
  { meta := { status := 500, statusText := "Missing Azure Maps Client ID",
              headers := [], durationMs := 0, url := url },
    body := msgObj "AZURE_MAPS_CLIENT_ID is not set.", raw := "",
    errorCode := some "missing_maps_client_id" }

/-- The bearer-token arm of credential resolution: require a client ID,
obtain a token through the cache/exchange, forward on success, and map a
thrown error to missing_credentials or token_error by its prefix. -/
def credentialEntra (env : Env) (cache : Option CachedToken) (tw : TokenWorld)
    (url method : String) (mapsClientId : Option String)
    (body : Option JsonVal) (fo : ForwardOutcome) : RouteResult :=
  match mapsClientId with
  | some cid =>
    if cid = "" then
      ⟨rejectionClientId url, 500, cache, 0, none, none⟩
    else
      match getMapsAccessToken env cache tw with
      | ⟨.ok tok, cache2, n⟩ =>
        forwardStep url method
          [("Authorization", "Bearer " ++ tok), ("x-ms-client-id", cid)]
          body cache2 n fo
      | ⟨.error m, cache2, n⟩ =>
        ⟨{ meta := { status := 500, statusText := "Token Error", headers := [],
                     durationMs := 0, url := url },
           body := msgObj m, raw := "",
           errorCode := some (if jsStartsWith m "missing_" then "missing_credentials"
                              else "token_error") },
         500, cache2, n, none, none⟩
  | none => ⟨rejectionClientId url, 500, cache, 0, none, none⟩

/-- The credential-resolution tail of the route: a truthy key wins with
no token exchange, anything else goes through the bearer arm. -/
def credentialStep (env : Env) (cache : Option CachedToken) (tw : TokenWorld)
    (url method : String) (mapsKey mapsClientId : Option String)
    (body : Option JsonVal) (fo : ForwardOutcome) : RouteResult :=
  match mapsKey with
  | some k =>
    if k = "" then credentialEntra env cache tw url method mapsClientId body fo
    else forwardStep url method [("subscription-key", k)] body cache 0 fo
  | none => credentialEntra env cache tw url method mapsClientId body fo

/-- The proxy POST handler.  `payload` is the result of `request.json()`
(`none` models a parse failure), `tw` and `fo` are the impure inputs the
token exchange and the upstream fetch would observe. -/
def POST (env : Env) (cache : Option CachedToken) (payload : Option RequestShape)
    (tw : TokenWorld) (fo : ForwardOutcome) : RouteResult :=
  match payload with
  | none =>
    ⟨rejection 400 "Bad Request" "Invalid JSON body." "invalid_json" "",
     400, cache, 0, none, none⟩
  | some p =>
    let path := normalizePath (jsOrStr p.path "")
    if isPathSafe path then
      let query := buildQueryString (p.params.getD [])
      let method := jsUpper (jsOrStr p.method "GET")
      if allowedMethods.contains method then
        let baseUrl := (p.baseUrl.or env.azureMapsBaseUrl).getD "https://atlas.microsoft.com"
        match routeNormalizeBase baseUrl with
        | none =>
          ⟨rejection 400 "Invalid Base URL"
             "Base URL must be a valid https URL without query or hash."
             "invalid_base_url" "", 400, cache, 0, none, none⟩
        | some normalizedBase =>
          let url := normalizedBase ++ "/" ++ path ++ (if query = "" then "" else "?" ++ query)
          credentialStep env cache tw url method
            (p.authApiKey.or env.azureMapsKey)
            (p.authClientId.or env.azureMapsClientId) p.body fo
      else
        ⟨rejection 400 "Invalid Method" "Unsupported HTTP method." "invalid_method" "",
         400, cache, 0, none, none⟩
    else
      ⟨rejection 400 "Invalid Path" "Endpoint path is invalid." "invalid_path" "",
       400, cache, 0, none, none⟩

/-! ### Substring/prefix preservation through path normalization -/

lemma infix_dropWhile_of_head {p : Char → Bool} {c0 : Char} {rest : List Char}
    (hc0 : p c0 = false) :
    ∀ {cs : List Char}, (c0 :: rest) <:+: cs → (c0 :: rest) <:+: cs.dropWhile p := by
  intro cs
  induction cs with
  | nil => intro h; simp at h
  | cons c cs ih =>
    intro h
    by_cases hp : p c = true
    · rw [List.dropWhile_cons_of_pos hp]
      rcases List.infix_cons_iff.mp h with hpre | hinf
      · rcases List.cons_prefix_cons.mp hpre with ⟨h1, -⟩
        subst h1
        simp [hc0] at hp
      · exact ih hinf
    · rw [List.dropWhile_cons_of_neg hp]
      exact h

lemma infix_rev {n cs : List Char} (h : n <:+: cs) : n.reverse <:+: cs.reverse := by
  obtain ⟨s, t, rfl⟩ := h
  exact ⟨t.reverse, s.reverse, by simp⟩

lemma dropWhile_eq_self_of_head {p : Char → Bool} {c0 : Char} {rest cs : List Char}
    (hc0 : p c0 = false) (h : (c0 :: rest) <+: cs) : cs.dropWhile p = cs := by
  obtain ⟨t, rfl⟩ := h
  rw [List.cons_append]
  exact List.dropWhile_cons_of_neg (by simp [hc0])

lemma prefix_dropRight {p : Char → Bool} {n cs : List Char}
    (hall : ∀ c ∈ n, p c = false) (h : n <+: cs) :
    n <+: (cs.reverse.dropWhile p).reverse := by
  obtain ⟨t, rfl⟩ := h
  rw [List.reverse_append, List.dropWhile_append]
  by_cases he : (t.reverse.dropWhile p).isEmpty = true
  · rw [if_pos he]
    have hsame : n.reverse.dropWhile p = n.reverse := by
      cases hn : n.reverse with
      | nil => rfl
      | cons d ds =>
        apply List.dropWhile_cons_of_neg
        have hd : d ∈ n := by
          have hmem : d ∈ n.reverse := by rw [hn]; exact List.mem_cons_self d ds
          exact List.mem_reverse.mp hmem
        simp [hall d hd]
    rw [hsame, List.reverse_reverse]
  · rw [if_neg he, List.reverse_append, List.reverse_reverse]
    exact ⟨(t.reverse.dropWhile p).reverse, rfl⟩

lemma normalizePath_toList (s : String) :
    (normalizePath s).toList = (trimChars s.toList).dropWhile (fun c => c == '/') := rfl

/-- Any occurrence of a substring whose first character is neither
whitespace nor a slash and whose last character is not whitespace
survives `normalizePath`. -/
lemma includes_normalizePath (s : String) (c0 : Char) (rest : List Char)
    (d0 : Char) (rrest : List Char) (hrev : (c0 :: rest).reverse = d0 :: rrest)
    (hw : isJsSpace c0 = false) (hwd : isJsSpace d0 = false) (hs : (c0 == '/') = false)
    (h : (c0 :: rest) <:+: s.toList) : (c0 :: rest) <:+: (normalizePath s).toList := by
  have h1 : (c0 :: rest) <:+: s.toList.dropWhile isJsSpace :=
    infix_dropWhile_of_head hw h
  have h2 := infix_rev h1
  rw [hrev] at h2
  have h3 : (d0 :: rrest) <:+: (s.toList.dropWhile isJsSpace).reverse.dropWhile isJsSpace :=
    infix_dropWhile_of_head hwd h2
  have h4 := infix_rev h3
  rw [← hrev, List.reverse_reverse] at h4
  have h5 : (c0 :: rest) <:+:
      (((s.toList.dropWhile isJsSpace).reverse.dropWhile isJsSpace).reverse).dropWhile
        (fun c => c == '/') :=
    infix_dropWhile_of_head (p := fun c => c == '/') hs h4
  rw [normalizePath_toList]
  exact h5

/-- A prefix with no whitespace characters whose first character is not a
slash survives `normalizePath`. -/
lemma prefix_normalizePath (s : String) (c0 : Char) (rest : List Char)
    (hall : ∀ c ∈ (c0 :: rest), isJsSpace c = false) (hs : (c0 == '/') = false)
    (h : (c0 :: rest) <+: s.toList) : (c0 :: rest) <+: (normalizePath s).toList := by
  have h1 : s.toList.dropWhile isJsSpace = s.toList :=
    dropWhile_eq_self_of_head (hall c0 (List.mem_cons_self c0 rest)) h
  have h2 : (c0 :: rest) <+: trimChars s.toList := by
    unfold trimChars
    rw [h1]
    exact prefix_dropRight hall h
  have h3 : (trimChars s.toList).dropWhile (fun c => c == '/') = trimChars s.toList :=
    dropWhile_eq_self_of_head (p := fun c => c == '/') hs h2
  rw [normalizePath_toList, h3]
  exact h2

lemma isPathSafe_false_of_scheme (s : String) (h : jsIncludes s "://" = true) :
    isPathSafe s = false := by
  have hin : ([':', '/', '/'] : List Char) <:+: s.toList := of_decide_eq_true h
  have hin2 : ([':', '/', '/'] : List Char) <:+: (normalizePath s).toList :=
    includes_normalizePath s ':' ['/', '/'] '/' ['/', ':'] (by decide) (by decide)
      (by decide) (by decide) hin
  have hji : jsIncludes (normalizePath s) "://" = true := decide_eq_true hin2
  unfold isPathSafe
  by_cases h0 : normalizePath s = ""
  · rw [if_pos h0]
  · rw [if_neg h0, hji]
    simp

lemma isPathSafe_false_of_dotdot (s : String) (h : jsIncludes s ".." = true) :
    isPathSafe s = false := by
  have hin : (['.', '.'] : List Char) <:+: s.toList := of_decide_eq_true h
  have hin2 : (['.', '.'] : List Char) <:+: (normalizePath s).toList :=
    includes_normalizePath s '.' ['.'] '.' ['.'] (by decide) (by decide)
      (by decide) (by decide) hin
  have hji : jsIncludes (normalizePath s) ".." = true := decide_eq_true hin2
  unfold isPathSafe
  by_cases h0 : normalizePath s = ""
  · rw [if_pos h0]
  · rw [if_neg h0, hji]
    by_cases h1 : (jsStartsWith (normalizePath s) "http" ||
        jsIncludes (normalizePath s) "://") = true
    · rw [if_pos h1]
    · rw [if_neg h1]
      simp

lemma isPathSafe_false_of_http (s : String) (h : jsStartsWith s "http" = true) :
    isPathSafe s = false := by
  have hin : (['h', 't', 't', 'p'] : List Char) <+: s.toList := of_decide_eq_true h
  have hin2 : (['h', 't', 't', 'p'] : List Char) <+: (normalizePath s).toList :=
    prefix_normalizePath s 'h' ['t', 't', 'p'] (by decide) (by decide) hin
  have hji : jsStartsWith (normalizePath s) "http" = true := decide_eq_true hin2
  unfold isPathSafe
  by_cases h0 : normalizePath s = ""
  · rw [if_pos h0]
  · rw [if_neg h0, hji]
    simp

lemma isPathSafe_false_of_empty (s : String) (h : normalizePath s = "") :
    isPathSafe s = false := by
  unfold isPathSafe
  rw [if_pos h]

/-- The `invalid_path` rejection record the route returns. -/
lemma POST_invalid_path (env : Env) (cache : Option CachedToken) (p : RequestShape)
    (tw : TokenWorld) (fo : ForwardOutcome)
    (hsafe : isPathSafe (normalizePath (jsOrStr p.path "")) = false) :
    POST env cache (some p) tw fo =
      ⟨rejection 400 "Invalid Path" "Endpoint path is invalid." "invalid_path" "",
       400, cache, 0, none, none⟩ := by
  unfold POST
  simp only [hsafe]
  rfl

/-! ### Concrete fixtures for witnesses and counterexamples -/

/-- An environment with every variable unset. -/
def envNone : Env := ⟨none, none, none, none, none, none, none⟩

/-- An environment providing only the static maps key. -/
def envKeyOnly : Env := ⟨none, some "k", none, none, none, none, none⟩

/-- A token world whose exchange would fail on the wire. -/
def twIdle : TokenWorld := ⟨0, 0, .transportError "net down"⟩

/-- An upstream that answers 200 with an empty body. -/
def foOk : ForwardOutcome := .response 200 "OK" [] "" none 5

/-! ### Claim C1 -/

/-- C1: for every parsed request whose path — after trimming and
stripping leading slashes — is empty, contains the scheme marker "://",
or contains "..", the proxy POST handler returns the invalid_path
envelope with HTTP status 400, and neither a token exchange nor an
upstream forward takes place. -/
theorem C1_invalid_path_rejected_locally
    (env : Env) (cache : Option CachedToken) (p : RequestShape)
    (tw : TokenWorld) (fo : ForwardOutcome)
    (h : normalizePath (jsOrStr p.path "") = "" ∨
         jsIncludes (normalizePath (jsOrStr p.path "")) "://" = true ∨
         jsIncludes (normalizePath (jsOrStr p.path "")) ".." = true) :
    (POST env cache (some p) tw fo).response.errorCode = some "invalid_path" ∧
    (POST env cache (some p) tw fo).response.meta.status = 400 ∧
    (POST env cache (some p) tw fo).httpStatus = 400 ∧
    (POST env cache (some p) tw fo).exchangeCalls = 0 ∧
    (POST env cache (some p) tw fo).forwardRequest = none := by
  have hsafe : isPathSafe (normalizePath (jsOrStr p.path "")) = false := by
    rcases h with h | h | h
    · rw [h]; decide
    · exact isPathSafe_false_of_scheme _ h
    · exact isPathSafe_false_of_dotdot _ h
  rw [POST_invalid_path env cache p tw fo hsafe]
  exact ⟨rfl, rfl, rfl, rfl, rfl⟩

/-- The traversal request of the C1 witness. -/
def pTraversal : RequestShape :=
  ⟨some "../../etc/passwd", none, some "GET", none, none, none, none⟩

/-- Witness for C1 at the concrete traversal path "../../etc/passwd". -/
theorem C1_invalid_path_rejected_locally_witness :
    (POST envNone none (some pTraversal) twIdle foOk).response.errorCode = some "invalid_path" ∧
    (POST envNone none (some pTraversal) twIdle foOk).response.meta.status = 400 ∧
    (POST envNone none (some pTraversal) twIdle foOk).httpStatus = 400 ∧
    (POST envNone none (some pTraversal) twIdle foOk).exchangeCalls = 0 ∧
    (POST envNone none (some pTraversal) twIdle foOk).forwardRequest = none :=
  C1_invalid_path_rejected_locally envNone none pTraversal twIdle foOk
    (Or.inr (Or.inr (by decide)))

/-! ### Claim C10 -/

/-- C10: the path check is prefix/substring based — a path whose trimmed,
leading-slash-stripped form starts with the four characters "http" (even
with no "://" anywhere) or contains ".." anywhere (even inside one
segment) is rejected with invalid_path and status 400, with no network
activity. -/
theorem C10_path_check_prefix_substring_based
    (env : Env) (cache : Option CachedToken) (p : RequestShape)
    (tw : TokenWorld) (fo : ForwardOutcome)
    (h : jsStartsWith (normalizePath (jsOrStr p.path "")) "http" = true ∨
         jsIncludes (normalizePath (jsOrStr p.path "")) ".." = true) :
    (POST env cache (some p) tw fo).response.errorCode = some "invalid_path" ∧
    (POST env cache (some p) tw fo).response.meta.status = 400 ∧
    (POST env cache (some p) tw fo).httpStatus = 400 ∧
    (POST env cache (some p) tw fo).exchangeCalls = 0 ∧
    (POST env cache (some p) tw fo).forwardRequest = none := by
  have hsafe : isPathSafe (normalizePath (jsOrStr p.path "")) = false := by
    rcases h with h | h
    · exact isPathSafe_false_of_http _ h
    · exact isPathSafe_false_of_dotdot _ h
  rw [POST_invalid_path env cache p tw fo hsafe]
  exact ⟨rfl, rfl, rfl, rfl, rfl⟩

/-- The "httpstatus/check" request of the C10 witness: starts with
"http" but carries no "://". -/
def pHttpLike : RequestShape :=
  ⟨some "httpstatus/check", none, some "GET", none, none, none, none⟩

/-- The "a..b" request of the C10 witness: ".." inside one segment. -/
def pDotDotInside : RequestShape :=
  ⟨some "a..b", none, some "GET", none, none, none, none⟩

/-- Witness for C10 at the two concrete paths "httpstatus/check" and
"a..b". -/
theorem C10_path_check_prefix_substring_based_witness :
    ((POST envNone none (some pHttpLike) twIdle foOk).response.errorCode = some "invalid_path" ∧
     (POST envNone none (some pHttpLike) twIdle foOk).response.meta.status = 400 ∧
     (POST envNone none (some pHttpLike) twIdle foOk).httpStatus = 400 ∧
     (POST envNone none (some pHttpLike) twIdle foOk).exchangeCalls = 0 ∧
     (POST envNone none (some pHttpLike) twIdle foOk).forwardRequest = none) ∧
    ((POST envNone none (some pDotDotInside) twIdle foOk).response.errorCode = some "invalid_path" ∧
     (POST envNone none (some pDotDotInside) twIdle foOk).response.meta.status = 400 ∧
     (POST envNone none (some pDotDotInside) twIdle foOk).httpStatus = 400 ∧
     (POST envNone none (some pDotDotInside) twIdle foOk).exchangeCalls = 0 ∧
     (POST envNone none (some pDotDotInside) twIdle foOk).forwardRequest = none) :=
  ⟨C10_path_check_prefix_substring_based envNone none pHttpLike twIdle foOk
     (Or.inl (by decide)),
   C10_path_check_prefix_substring_based envNone none pDotDotInside twIdle foOk
     (Or.inr (by decide))⟩

/-! ### Token-exchange helper lemmas -/

lemma getRequiredEnv_error_of_falsy (name : String) (v : Option String)
    (h : jsTruthy v = false) :
    getRequiredEnv name v = .error ("missing_" ++ name) := by
  cases v with
  | none => rfl
  | some s =>
    have hs : s = "" := by simpa [jsTruthy] using h
    subst hs; rfl

lemma getRequiredEnv_ok_of_truthy (name : String) (v : Option String)
    (h : jsTruthy v = true) :
    ∃ s, v = some s ∧ getRequiredEnv name v = .ok s := by
  cases v with
  | none => simp [jsTruthy] at h
  | some s =>
    have hs : ¬ s = "" := by simpa [jsTruthy] using h
    exact ⟨s, rfl, by simp only [getRequiredEnv]; rw [if_neg hs]⟩

lemma tokenExchange_cache_or_success (env : Env) (cache : Option CachedToken)
    (w : TokenWorld) :
    (tokenExchange env cache w).cache = cache ∨
    (∃ tok exp, w.outcome = .success tok exp ∧
       tokenExchange env cache w = ⟨.ok tok, some ⟨tok, w.nowWrite + exp * 1000⟩, 1⟩) := by
  unfold tokenExchange
  cases getRequiredEnv "AZURE_TENANT_ID" env.azureTenantId with
  | error m => exact Or.inl rfl
  | ok v =>
    by_cases hc : (!jsTruthy env.azureClientId || !jsTruthy env.azureClientSecret) = true
    · rw [if_pos hc]; exact Or.inl rfl
    · rw [if_neg hc]
      cases ho : w.outcome with
      | transportError m => exact Or.inl rfl
      | httpError st tx => exact Or.inl rfl
      | parseError m => exact Or.inl rfl
      | success tok exp => exact Or.inr ⟨tok, exp, rfl, rfl⟩

lemma getToken_cache_or_success (env : Env) (cache : Option CachedToken)
    (w : TokenWorld) :
    (getMapsAccessToken env cache w).cache = cache ∨
    (∃ tok exp, w.outcome = .success tok exp ∧
       getMapsAccessToken env cache w = ⟨.ok tok, some ⟨tok, w.nowWrite + exp * 1000⟩, 1⟩) := by
  cases cache with
  | none => exact tokenExchange_cache_or_success env none w
  | some t =>
    simp only [getMapsAccessToken]
    by_cases hf : t.expiresAt > w.nowCheck + 60000
    · rw [if_pos hf]; exact Or.inl rfl
    · rw [if_neg hf]; exact tokenExchange_cache_or_success env (some t) w

lemma getToken_stale_eq_exchange (env : Env) (cache : Option CachedToken)
    (w : TokenWorld) (hstale : ∀ t, cache = some t → ¬ t.expiresAt > w.nowCheck + 60000) :
    getMapsAccessToken env cache w = tokenExchange env cache w := by
  cases cache with
  | none => rfl
  | some t =>
    simp only [getMapsAccessToken]
    rw [if_neg (hstale t rfl)]

/-! ### Claim C2 -/

/-- C2: `getMapsAccessToken` serves a cached token expiring more than
60 s after the current time without any network call and without
touching the cache; otherwise, with the exchange configuration present,
it issues exactly one exchange call (no internal retry) and a successful
exchange overwrites the single cache slot with the new token and the
absolute expiry now + expires_in (scaled to milliseconds), returning the
new token. -/
theorem C2_token_cache_hit_and_single_exchange
    (env : Env) (cache : Option CachedToken) (w : TokenWorld) :
    (∀ t, cache = some t → t.expiresAt > w.nowCheck + 60000 →
       getMapsAccessToken env cache w = ⟨.ok t.accessToken, cache, 0⟩) ∧
    ((∀ t, cache = some t → ¬ t.expiresAt > w.nowCheck + 60000) →
     jsTruthy env.azureTenantId = true →
     jsTruthy env.azureClientId = true →
     jsTruthy env.azureClientSecret = true →
     (getMapsAccessToken env cache w).exchangeCalls = 1 ∧
     (∀ tok exp, w.outcome = .success tok exp →
        getMapsAccessToken env cache w =
          ⟨.ok tok, some ⟨tok, w.nowWrite + exp * 1000⟩, 1⟩)) := by
  constructor
  · intro t ht hfresh
    subst ht
    simp only [getMapsAccessToken]
    rw [if_pos hfresh]
  · intro hstale htn hcid hsec
    rw [getToken_stale_eq_exchange env cache w hstale]
    obtain ⟨tv, -, hge⟩ := getRequiredEnv_ok_of_truthy "AZURE_TENANT_ID" env.azureTenantId htn
    have hclient : (!jsTruthy env.azureClientId || !jsTruthy env.azureClientSecret) = false := by
      rw [hcid, hsec]; rfl
    unfold tokenExchange
    rw [hge]
    simp only [hclient, Bool.false_eq_true, if_false]
    cases ho : w.outcome with
    | transportError m =>
      refine ⟨rfl, ?_⟩
      intro tok exp h; simp at h
    | httpError st tx =>
      refine ⟨rfl, ?_⟩
      intro tok exp h; simp at h
    | parseError m =>
      refine ⟨rfl, ?_⟩
      intro tok exp h; simp at h
    | success tok exp =>
      refine ⟨rfl, ?_⟩
      intro tok2 exp2 h
      injection h with h1 h2
      subst h1; subst h2
      rfl

/-- An environment with the full Entra configuration. -/
def envEntra : Env := ⟨none, none, some "mc", some "t", some "c", some "s", none⟩

/-- A token world delivering a successful exchange. -/
def twRefresh : TokenWorld := ⟨1000000, 1000250, .success "newtok" 3600⟩

/-- Witness for C2: a stale cache entry is refreshed by exactly one
successful exchange, stored with expiry nowWrite + 3600 * 1000. -/
theorem C2_token_cache_hit_and_single_exchange_witness :
    getMapsAccessToken envEntra (some ⟨"old", 1050000⟩) twRefresh =
      ⟨.ok "newtok", some ⟨"newtok", 1000250 + 3600 * 1000⟩, 1⟩ :=
  ((C2_token_cache_hit_and_single_exchange envEntra (some ⟨"old", 1050000⟩) twRefresh).2
      (by intro t ht; cases ht; decide) (by decide) (by decide) (by decide)).2
    "newtok" 3600 rfl

/-! ### Claim C9 -/

/-- C9: the process-wide cache slot is left exactly as it was whenever
`getMapsAccessToken` fails (missing configuration, non-success response,
transport or parse failure), and it changes only after a successful
exchange response has been received and parsed, in which case the slot
holds the new token and the call returns it. -/
theorem C9_cache_atomic_on_failure
    (env : Env) (cache : Option CachedToken) (w : TokenWorld) :
    (∀ m, (getMapsAccessToken env cache w).result = .error m →
       (getMapsAccessToken env cache w).cache = cache) ∧
    ((getMapsAccessToken env cache w).cache ≠ cache →
       ∃ tok exp, w.outcome = .success tok exp ∧
         getMapsAccessToken env cache w =
           ⟨.ok tok, some ⟨tok, w.nowWrite + exp * 1000⟩, 1⟩) := by
  constructor
  · intro m h
    rcases getToken_cache_or_success env cache w with hc | ⟨tok, exp, ho, heq⟩
    · exact hc
    · rw [heq] at h; simp at h
  · intro hne
    rcases getToken_cache_or_success env cache w with hc | hs
    · exact absurd hc hne
    · exact hs

/-- Witness for C9: a transport failure during the exchange leaves the
stale cache entry in place. -/
theorem C9_cache_atomic_on_failure_witness :
    (getMapsAccessToken envEntra (some ⟨"old", 1000⟩) twIdle).cache = some ⟨"old", 1000⟩ :=
  (C9_cache_atomic_on_failure envEntra (some ⟨"old", 1000⟩) twIdle).1 "net down" rfl

/-! ### Claim C7 (corrected) -/

/-- An Entra environment missing only the client ID. -/
def envNoClientId : Env := ⟨none, none, some "mc", some "t", none, some "s", none⟩

/-- An Entra environment missing only the client secret. -/
def envNoSecret : Env := ⟨none, none, some "mc", some "t", some "c", none, none⟩

/-- C7 counterexample: a configuration missing only the client ID and a
configuration missing only the client secret fail with the identical
error "missing_client_credentials" — the three prerequisites do not each
produce a distinguishable missing_<name> error as the claim states. -/
theorem C7_counterexample_shared_client_error :
    (getMapsAccessToken envNoClientId none twIdle).result =
      .error "missing_client_credentials" ∧
    (getMapsAccessToken envNoSecret none twIdle).result =
      .error "missing_client_credentials" ∧
    getMapsAccessToken envNoClientId none twIdle =
      getMapsAccessToken envNoSecret none twIdle ∧
    (getMapsAccessToken envNoClientId none twIdle).exchangeCalls = 0 :=
  ⟨rfl, rfl, rfl, rfl⟩

/-- C7 (amended): with a stale-or-absent cache, an unset or empty tenant
ID fails fast with missing_AZURE_TENANT_ID and no network call; a
missing client ID or client secret fails fast with the shared error
missing_client_credentials and no network call; and a non-success HTTP
response from the token endpoint fails with an error embedding the
response status and body after exactly one call. -/
theorem C7_fail_fast_and_embedded_http_error
    (env : Env) (cache : Option CachedToken) (w : TokenWorld)
    (hstale : ∀ t, cache = some t → ¬ t.expiresAt > w.nowCheck + 60000) :
    (jsTruthy env.azureTenantId = false →
       getMapsAccessToken env cache w = ⟨.error "missing_AZURE_TENANT_ID", cache, 0⟩) ∧
    (jsTruthy env.azureTenantId = true →
     (jsTruthy env.azureClientId = false ∨ jsTruthy env.azureClientSecret = false) →
       getMapsAccessToken env cache w = ⟨.error "missing_client_credentials", cache, 0⟩) ∧
    (∀ st text, jsTruthy env.azureTenantId = true →
     jsTruthy env.azureClientId = true → jsTruthy env.azureClientSecret = true →
     w.outcome = .httpError st text →
       getMapsAccessToken env cache w =
         ⟨.error ("token_error:" ++ toString st ++ ":" ++ text), cache, 1⟩) := by
  rw [getToken_stale_eq_exchange env cache w hstale]
  refine ⟨?_, ?_, ?_⟩
  · intro htn
    unfold tokenExchange
    rw [getRequiredEnv_error_of_falsy "AZURE_TENANT_ID" env.azureTenantId htn]
    rfl
  · intro htn hone
    obtain ⟨tv, -, hge⟩ := getRequiredEnv_ok_of_truthy "AZURE_TENANT_ID" env.azureTenantId htn
    unfold tokenExchange
    rw [hge]
    have hc : (!jsTruthy env.azureClientId || !jsTruthy env.azureClientSecret) = true := by
      rcases hone with h | h <;> simp [h]
    rw [if_pos hc]

  · intro st text htn hcid hsec ho
    obtain ⟨tv, -, hge⟩ := getRequiredEnv_ok_of_truthy "AZURE_TENANT_ID" env.azureTenantId htn
    have hclient : (!jsTruthy env.azureClientId || !jsTruthy env.azureClientSecret) = false := by
      rw [hcid, hsec]; rfl
    unfold tokenExchange
    rw [hge]
    simp only [hclient, Bool.false_eq_true, if_false]
    rw [ho]


/-- An Entra environment missing only the tenant ID. -/
def envNoTenant : Env := ⟨none, none, some "mc", none, some "c", some "s", none⟩

/-- Witness for the amended C7: the missing-tenant and the non-success
HTTP response failure modes at concrete inputs. -/
theorem C7_fail_fast_and_embedded_http_error_witness :
    getMapsAccessToken envNoTenant none twIdle =
      ⟨.error "missing_AZURE_TENANT_ID", none, 0⟩ ∧
    getMapsAccessToken envEntra none ⟨0, 0, .httpError 401 "denied"⟩ =
      ⟨.error "token_error:401:denied", none, 1⟩ :=
  ⟨(C7_fail_fast_and_embedded_http_error envNoTenant none twIdle
      (by intro t ht; simp at ht)).1 (by decide),
   ((C7_fail_fast_and_embedded_http_error envEntra none ⟨0, 0, .httpError 401 "denied"⟩
      (by intro t ht; simp at ht)).2.2 401 "denied" (by decide) (by decide) (by decide) rfl)⟩

/-! ### Route shape lemmas -/

lemma url_ne_empty (nb mid q : String) : nb ++ "/" ++ mid ++ q ≠ "" := by
  intro h
  have h2 : (nb ++ "/" ++ mid ++ q).length = 0 := by rw [h]; rfl
  rw [String.length_append, String.length_append, String.length_append] at h2
  have h3 : ("/" : String).length = 1 := rfl
  omega

lemma forwardStep_shape (url method : String) (authHeaders : List (String × String))
    (body : Option JsonVal) (cache : Option CachedToken) (exCalls : Nat)
    (fo : ForwardOutcome) (r : RouteResult)
    (hr : r = forwardStep url method authHeaders body cache exCalls fo) :
    (∃ st stx hdrs rawText parsed elapsed,
       fo = .response st stx hdrs rawText parsed elapsed ∧
       r.response.errorCode = none ∧ r.response.meta.status = st ∧ r.httpStatus = st ∧
       r.upstreamStatus = some st ∧ r.response.meta.durationMs = elapsed ∧
       r.response.meta.url = url ∧ r.forwardRequest.isSome = true ∧
       r.exchangeCalls = exCalls) ∨
    (∃ m tm elapsed,
       fo = .failure m tm elapsed ∧
       r.response.errorCode = some "request_failed" ∧ r.response.meta.status = 502 ∧
       r.httpStatus = 502 ∧ r.upstreamStatus = none ∧
       r.response.meta.durationMs = elapsed ∧ r.response.meta.url = url ∧
       r.response.raw = "" ∧ r.response.meta.headers = [] ∧
       r.response.body = msgObj m ∧ r.forwardRequest.isSome = true ∧
       r.exchangeCalls = exCalls) := by
  subst hr
  cases fo with
  | response st stx hdrs rawText parsed elapsed =>
    exact Or.inl ⟨st, stx, hdrs, rawText, parsed, elapsed,
      rfl, rfl, rfl, rfl, rfl, rfl, rfl, rfl, rfl⟩
  | failure m tm elapsed =>
    exact Or.inr ⟨m, tm, elapsed,
      rfl, rfl, rfl, rfl, rfl, rfl, rfl, rfl, rfl, rfl, rfl, rfl⟩

lemma credentialEntra_shape (env : Env) (cache : Option CachedToken) (tw : TokenWorld)
    (url method : String) (mapsClientId : Option String) (body : Option JsonVal)
    (fo : ForwardOutcome) (r : RouteResult)
    (hr : r = credentialEntra env cache tw url method mapsClientId body fo) :
    ((r.response.errorCode = some "missing_maps_client_id" ∨
      r.response.errorCode = some "missing_credentials" ∨
      r.response.errorCode = some "token_error") ∧
     r.response.meta.status = 500 ∧ r.httpStatus = 500 ∧
     r.response.meta.durationMs = 0 ∧ r.response.meta.url = url ∧
     r.upstreamStatus = none ∧ r.forwardRequest = none) ∨
    (∃ st stx hdrs rawText parsed elapsed,
       fo = .response st stx hdrs rawText parsed elapsed ∧
       r.response.errorCode = none ∧ r.response.meta.status = st ∧ r.httpStatus = st ∧
       r.upstreamStatus = some st ∧ r.response.meta.durationMs = elapsed ∧
       r.response.meta.url = url ∧ r.forwardRequest.isSome = true ∧
       r.exchangeCalls = (getMapsAccessToken env cache tw).exchangeCalls) ∨
    (∃ m tm elapsed,
       fo = .failure m tm elapsed ∧
       r.response.errorCode = some "request_failed" ∧ r.response.meta.status = 502 ∧
       r.httpStatus = 502 ∧ r.upstreamStatus = none ∧
       r.response.meta.durationMs = elapsed ∧ r.response.meta.url = url ∧
       r.response.raw = "" ∧ r.response.meta.headers = [] ∧
       r.response.body = msgObj m ∧ r.forwardRequest.isSome = true ∧
       r.exchangeCalls = (getMapsAccessToken env cache tw).exchangeCalls) := by
  subst hr
  cases mapsClientId with
  | none => exact Or.inl ⟨Or.inl rfl, rfl, rfl, rfl, rfl, rfl, rfl⟩
  | some cid =>
    by_cases hcid : cid = ""
    · subst hcid
      exact Or.inl ⟨Or.inl rfl, rfl, rfl, rfl, rfl, rfl, rfl⟩
    · cases hgt : getMapsAccessToken env cache tw with
      | mk res cache2 n =>
        cases res with
        | ok tok =>
          have hred : credentialEntra env cache tw url method (some cid) body fo =
              forwardStep url method
                [("Authorization", "Bearer " ++ tok), ("x-ms-client-id", cid)]
                body cache2 n fo := by
            simp only [credentialEntra, hgt]
            rw [if_neg hcid]
          rw [hred]
          rcases forwardStep_shape url method _ body cache2 n fo _ rfl with h | h
          · exact Or.inr (Or.inl h)
          · exact Or.inr (Or.inr h)
        | error m =>
          have hred : credentialEntra env cache tw url method (some cid) body fo =
              ⟨{ meta := { status := 500, statusText := "Token Error", headers := [],
                           durationMs := 0, url := url },
                 body := msgObj m, raw := "",
                 errorCode := some (if jsStartsWith m "missing_" then "missing_credentials"
                                    else "token_error") },
               500, cache2, n, none, none⟩ := by
            simp only [credentialEntra, hgt]
            rw [if_neg hcid]
          rw [hred]
          by_cases hms : jsStartsWith m "missing_" = true
          · refine Or.inl ⟨Or.inr (Or.inl ?_), rfl, rfl, rfl, rfl, rfl, rfl⟩
            show some (if jsStartsWith m "missing_" then "missing_credentials"
                       else "token_error") = some "missing_credentials"
            rw [if_pos hms]
          · refine Or.inl ⟨Or.inr (Or.inr ?_), rfl, rfl, rfl, rfl, rfl, rfl⟩
            show some (if jsStartsWith m "missing_" then "missing_credentials"
                       else "token_error") = some "token_error"
            rw [if_neg hms]

lemma credentialStep_key {env : Env} {cache : Option CachedToken} {tw : TokenWorld}
    {url method k : String} {mapsClientId : Option String} {body : Option JsonVal}
    {fo : ForwardOutcome} (hk : ¬ k = "") :
    credentialStep env cache tw url method (some k) mapsClientId body fo =
      forwardStep url method [("subscription-key", k)] body cache 0 fo := by
  simp only [credentialStep]
  rw [if_neg hk]

lemma credentialStep_shape (env : Env) (cache : Option CachedToken) (tw : TokenWorld)
    (url method : String) (mapsKey mapsClientId : Option String) (body : Option JsonVal)
    (fo : ForwardOutcome) (r : RouteResult)
    (hr : r = credentialStep env cache tw url method mapsKey mapsClientId body fo) :
    ((r.response.errorCode = some "missing_maps_client_id" ∨
      r.response.errorCode = some "missing_credentials" ∨
      r.response.errorCode = some "token_error") ∧
     r.response.meta.status = 500 ∧ r.httpStatus = 500 ∧
     r.response.meta.durationMs = 0 ∧ r.response.meta.url = url ∧
     r.upstreamStatus = none ∧ r.forwardRequest = none) ∨
    (∃ st stx hdrs rawText parsed elapsed,
       fo = .response st stx hdrs rawText parsed elapsed ∧
       r.response.errorCode = none ∧ r.response.meta.status = st ∧ r.httpStatus = st ∧
       r.upstreamStatus = some st ∧ r.response.meta.durationMs = elapsed ∧
       r.response.meta.url = url ∧ r.forwardRequest.isSome = true) ∨
    (∃ m tm elapsed,
       fo = .failure m tm elapsed ∧
       r.response.errorCode = some "request_failed" ∧ r.response.meta.status = 502 ∧
       r.httpStatus = 502 ∧ r.upstreamStatus = none ∧
       r.response.meta.durationMs = elapsed ∧ r.response.meta.url = url ∧
       r.response.raw = "" ∧ r.response.meta.headers = [] ∧
       r.response.body = msgObj m ∧ r.forwardRequest.isSome = true) := by
  subst hr
  cases mapsKey with
  | none =>
    rcases credentialEntra_shape env cache tw url method mapsClientId body fo _ rfl
      with h | h | h
    · exact Or.inl h
    · obtain ⟨st, stx, hdrs, rawText, parsed, elapsed, hfo, h1, h2, h3, h4, h5, h6, h7, -⟩ := h
      exact Or.inr (Or.inl ⟨st, stx, hdrs, rawText, parsed, elapsed, hfo, h1, h2, h3, h4, h5, h6, h7⟩)
    · obtain ⟨m, tm, elapsed, hfo, h1, h2, h3, h4, h5, h6, h7, h8, h9, h10, -⟩ := h
      exact Or.inr (Or.inr ⟨m, tm, elapsed, hfo, h1, h2, h3, h4, h5, h6, h7, h8, h9, h10⟩)
  | some k =>
    by_cases hke : k = ""
    · subst hke
      rcases credentialEntra_shape env cache tw url method mapsClientId body fo _ rfl
        with h | h | h
      · exact Or.inl h
      · obtain ⟨st, stx, hdrs, rawText, parsed, elapsed, hfo, h1, h2, h3, h4, h5, h6, h7, -⟩ := h
        exact Or.inr (Or.inl ⟨st, stx, hdrs, rawText, parsed, elapsed, hfo, h1, h2, h3, h4, h5, h6, h7⟩)
      · obtain ⟨m, tm, elapsed, hfo, h1, h2, h3, h4, h5, h6, h7, h8, h9, h10, -⟩ := h
        exact Or.inr (Or.inr ⟨m, tm, elapsed, hfo, h1, h2, h3, h4, h5, h6, h7, h8, h9, h10⟩)
    · rw [credentialStep_key hke]
      rcases forwardStep_shape url method _ body cache 0 fo _ rfl with h | h
      · obtain ⟨st, stx, hdrs, rawText, parsed, elapsed, hfo, h1, h2, h3, h4, h5, h6, h7, -⟩ := h
        exact Or.inr (Or.inl ⟨st, stx, hdrs, rawText, parsed, elapsed, hfo, h1, h2, h3, h4, h5, h6, h7⟩)
      · obtain ⟨m, tm, elapsed, hfo, h1, h2, h3, h4, h5, h6, h7, h8, h9, h10, -⟩ := h
        exact Or.inr (Or.inr ⟨m, tm, elapsed, hfo, h1, h2, h3, h4, h5, h6, h7, h8, h9, h10⟩)

lemma POST_invalid_method (env : Env) (cache : Option CachedToken) (p : RequestShape)
    (tw : TokenWorld) (fo : ForwardOutcome)
    (hsafe : isPathSafe (normalizePath (jsOrStr p.path "")) = true)
    (hm : allowedMethods.contains (jsUpper (jsOrStr p.method "GET")) = false) :
    POST env cache (some p) tw fo =
      ⟨rejection 400 "Invalid Method" "Unsupported HTTP method." "invalid_method" "",
       400, cache, 0, none, none⟩ := by
  simp only [POST, hsafe, hm, eq_self_iff_true, if_true, Bool.false_eq_true, if_false]

lemma POST_invalid_base_url (env : Env) (cache : Option CachedToken) (p : RequestShape)
    (tw : TokenWorld) (fo : ForwardOutcome)
    (hsafe : isPathSafe (normalizePath (jsOrStr p.path "")) = true)
    (hm : allowedMethods.contains (jsUpper (jsOrStr p.method "GET")) = true)
    (hb : routeNormalizeBase
            ((p.baseUrl.or env.azureMapsBaseUrl).getD "https://atlas.microsoft.com") = none) :
    POST env cache (some p) tw fo =
      ⟨rejection 400 "Invalid Base URL"
         "Base URL must be a valid https URL without query or hash."
         "invalid_base_url" "", 400, cache, 0, none, none⟩ := by
  simp only [POST, hsafe, hm, hb, eq_self_iff_true, if_true]

lemma POST_reaches_credentialStep (env : Env) (cache : Option CachedToken)
    (p : RequestShape) (tw : TokenWorld) (fo : ForwardOutcome) (nb : String)
    (hsafe : isPathSafe (normalizePath (jsOrStr p.path "")) = true)
    (hm : allowedMethods.contains (jsUpper (jsOrStr p.method "GET")) = true)
    (hb : routeNormalizeBase
            ((p.baseUrl.or env.azureMapsBaseUrl).getD "https://atlas.microsoft.com") = some nb) :
    POST env cache (some p) tw fo =
      credentialStep env cache tw
        (nb ++ "/" ++ normalizePath (jsOrStr p.path "") ++
          (if buildQueryString (p.params.getD []) = "" then ""
           else "?" ++ buildQueryString (p.params.getD [])))
        (jsUpper (jsOrStr p.method "GET"))
        (p.authApiKey.or env.azureMapsKey) (p.authClientId.or env.azureMapsClientId)
        p.body fo := by
  simp only [POST, hsafe, hm, hb, eq_self_iff_true, if_true]

lemma POST_shape (env : Env) (cache : Option CachedToken) (payload : Option RequestShape)
    (tw : TokenWorld) (fo : ForwardOutcome) (r : RouteResult)
    (hr : r = POST env cache payload tw fo) :
    ((r.response.errorCode = some "invalid_json" ∨
      r.response.errorCode = some "invalid_path" ∨
      r.response.errorCode = some "invalid_method" ∨
      r.response.errorCode = some "invalid_base_url") ∧
     r.response.meta.status = 400 ∧ r.httpStatus = 400 ∧
     r.response.meta.durationMs = 0 ∧ r.response.meta.url = "" ∧
     r.upstreamStatus = none ∧ r.forwardRequest = none) ∨
    ((r.response.errorCode = some "missing_maps_client_id" ∨
      r.response.errorCode = some "missing_credentials" ∨
      r.response.errorCode = some "token_error") ∧
     r.response.meta.status = 500 ∧ r.httpStatus = 500 ∧
     r.response.meta.durationMs = 0 ∧ r.response.meta.url ≠ "" ∧
     r.upstreamStatus = none ∧ r.forwardRequest = none) ∨
    (∃ st stx hdrs rawText parsed elapsed,
       fo = .response st stx hdrs rawText parsed elapsed ∧
       r.response.errorCode = none ∧ r.response.meta.status = st ∧ r.httpStatus = st ∧
       r.upstreamStatus = some st ∧ r.response.meta.durationMs = elapsed ∧
       r.forwardRequest.isSome = true) ∨
    (∃ m tm elapsed,
       fo = .failure m tm elapsed ∧
       r.response.errorCode = some "request_failed" ∧ r.response.meta.status = 502 ∧
       r.httpStatus = 502 ∧ r.upstreamStatus = none ∧
       r.response.meta.durationMs = elapsed ∧ r.response.raw = "" ∧
       r.response.meta.headers = [] ∧ r.response.body = msgObj m ∧
       r.forwardRequest.isSome = true) := by
  subst hr
  cases payload with
  | none => exact Or.inl ⟨Or.inl rfl, rfl, rfl, rfl, rfl, rfl, rfl⟩
  | some p =>
    by_cases hsafe : isPathSafe (normalizePath (jsOrStr p.path "")) = true
    · by_cases hm : allowedMethods.contains (jsUpper (jsOrStr p.method "GET")) = true
      · cases hb : routeNormalizeBase
            ((p.baseUrl.or env.azureMapsBaseUrl).getD "https://atlas.microsoft.com") with
        | none =>
          rw [POST_invalid_base_url env cache p tw fo hsafe hm hb]
          exact Or.inl ⟨Or.inr (Or.inr (Or.inr rfl)), rfl, rfl, rfl, rfl, rfl, rfl⟩
        | some nb =>
          rw [POST_reaches_credentialStep env cache p tw fo nb hsafe hm hb]
          rcases credentialStep_shape env cache tw _ _ _ _ _ fo _ rfl with h | h | h
          · refine Or.inr (Or.inl ⟨h.1, h.2.1, h.2.2.1, h.2.2.2.1, ?_,
              h.2.2.2.2.2.1, h.2.2.2.2.2.2⟩)
            rw [h.2.2.2.2.1]
            exact url_ne_empty nb _ _
          · obtain ⟨st, stx, hdrs, rawText, parsed, elapsed, hfo, h1, h2, h3, h4, h5, -, h7⟩ := h
            exact Or.inr (Or.inr (Or.inl ⟨st, stx, hdrs, rawText, parsed, elapsed,
              hfo, h1, h2, h3, h4, h5, h7⟩))
          · obtain ⟨m, tm, elapsed, hfo, h1, h2, h3, h4, h5, -, h7, h8, h9, h10⟩ := h
            exact Or.inr (Or.inr (Or.inr ⟨m, tm, elapsed, hfo, h1, h2, h3, h4, h5,
              h7, h8, h9, h10⟩))
      · have hm2 : allowedMethods.contains (jsUpper (jsOrStr p.method "GET")) = false :=
          Bool.eq_false_iff.mpr hm
        rw [POST_invalid_method env cache p tw fo hsafe hm2]
        exact Or.inl ⟨Or.inr (Or.inr (Or.inl rfl)), rfl, rfl, rfl, rfl, rfl, rfl⟩
    · have hs2 : isPathSafe (normalizePath (jsOrStr p.path "")) = false :=
        Bool.eq_false_iff.mpr hsafe
      rw [POST_invalid_path env cache p tw fo hs2]
      exact Or.inl ⟨Or.inr (Or.inl rfl), rfl, rfl, rfl, rfl, rfl, rfl⟩

/-! ### Claim C3 -/

/-- C3: in every envelope the proxy returns, meta.status is the upstream
status when the upstream responded and a synthesized 400/500/502
otherwise, and errorCode is present exactly when the request did not
reach a downstream response (so an upstream 4xx/5xx yields an envelope
with no errorCode). -/
theorem C3_envelope_status_and_errorCode_invariant
    (env : Env) (cache : Option CachedToken) (payload : Option RequestShape)
    (tw : TokenWorld) (fo : ForwardOutcome) :
    ((POST env cache payload tw fo).upstreamStatus = none →
       (POST env cache payload tw fo).response.errorCode ≠ none ∧
       ((POST env cache payload tw fo).response.meta.status = 400 ∨
        (POST env cache payload tw fo).response.meta.status = 500 ∨
        (POST env cache payload tw fo).response.meta.status = 502)) ∧
    (∀ st, (POST env cache payload tw fo).upstreamStatus = some st →
       (POST env cache payload tw fo).response.errorCode = none ∧
       (POST env cache payload tw fo).response.meta.status = st) := by
  rcases POST_shape env cache payload tw fo _ rfl with h | h | h | h
  · refine ⟨fun _ => ⟨?_, Or.inl h.2.1⟩, fun st hst => ?_⟩
    · rcases h.1 with he | he | he | he <;> rw [he] <;> simp
    · rw [h.2.2.2.2.2.1] at hst
      exact Option.noConfusion hst
  · refine ⟨fun _ => ⟨?_, Or.inr (Or.inl h.2.1)⟩, fun st hst => ?_⟩
    · rcases h.1 with he | he | he <;> rw [he] <;> simp
    · rw [h.2.2.2.2.2.1] at hst
      exact Option.noConfusion hst
  · obtain ⟨st, stx, hdrs, rawText, parsed, elapsed, hfo, h1, h2, h3, h4, h5, h6⟩ := h
    refine ⟨fun hnone => ?_, fun st2 hst2 => ?_⟩
    · rw [h4] at hnone
      exact Option.noConfusion hnone
    · rw [h4] at hst2
      injection hst2 with he
      subst he
      exact ⟨h1, h2⟩
  · obtain ⟨m, tm, elapsed, hfo, h1, h2, h3, h4, h5, h6, h7, h8, h9⟩ := h
    refine ⟨fun _ => ⟨?_, Or.inr (Or.inr h2)⟩, fun st2 hst2 => ?_⟩
    · rw [h1]; simp
    · rw [h4] at hst2
      exact Option.noConfusion hst2

/-- A key-authenticated request used by several witnesses. -/
def pKeyed : RequestShape := ⟨some "geocode", none, some "GET", none, none, some "k", none⟩

/-- An upstream that answers 404. -/
def foNotFound : ForwardOutcome := .response 404 "Not Found" [] "err" none 3

/-- Witness for C3: an upstream 404 is passed through with no
errorCode. -/
theorem C3_envelope_status_and_errorCode_invariant_witness :
    (POST envNone none (some pKeyed) twIdle foNotFound).response.errorCode = none ∧
    (POST envNone none (some pKeyed) twIdle foNotFound).response.meta.status = 404 :=
  (C3_envelope_status_and_errorCode_invariant envNone none (some pKeyed) twIdle
    foNotFound).2 404 rfl

/-! ### Claim C8 (corrected) -/

/-- An anonymous request that reaches the credential step with neither a
key nor a client ID. -/
def pGeocode : RequestShape := ⟨some "geocode", none, some "GET", none, none, none, none⟩

/-- C8 counterexample: the missing_maps_client_id rejection happens
before any network attempt yet carries the constructed request url, not
an empty one. -/
theorem C8_counterexample_missing_client_id_url :
    (POST envNone none (some pGeocode) twIdle foOk).response.errorCode =
      some "missing_maps_client_id" ∧
    (POST envNone none (some pGeocode) twIdle foOk).response.meta.durationMs = 0 ∧
    (POST envNone none (some pGeocode) twIdle foOk).exchangeCalls = 0 ∧
    (POST envNone none (some pGeocode) twIdle foOk).forwardRequest = none ∧
    (POST envNone none (some pGeocode) twIdle foOk).response.meta.url =
      "https://atlas.microsoft.com/geocode" ∧
    (POST envNone none (some pGeocode) twIdle foOk).response.meta.url ≠ "" := by
  refine ⟨rfl, rfl, rfl, rfl, rfl, by decide⟩

/-- C8 (amended): the four 400-class rejections (invalid_json,
invalid_path, invalid_method, invalid_base_url) report durationMs 0 and
an empty url and forward nothing; the missing_maps_client_id rejection
also occurs before any network attempt with durationMs 0, but its
meta.url is the already-constructed (non-empty) request url. -/
theorem C8_pre_network_rejections_duration_and_url
    (env : Env) (cache : Option CachedToken) (payload : Option RequestShape)
    (tw : TokenWorld) (fo : ForwardOutcome) :
    (((POST env cache payload tw fo).response.errorCode = some "invalid_json" ∨
      (POST env cache payload tw fo).response.errorCode = some "invalid_path" ∨
      (POST env cache payload tw fo).response.errorCode = some "invalid_method" ∨
      (POST env cache payload tw fo).response.errorCode = some "invalid_base_url") →
       (POST env cache payload tw fo).response.meta.durationMs = 0 ∧
       (POST env cache payload tw fo).response.meta.url = "" ∧
       (POST env cache payload tw fo).forwardRequest = none) ∧
    ((POST env cache payload tw fo).response.errorCode = some "missing_maps_client_id" →
       (POST env cache payload tw fo).response.meta.durationMs = 0 ∧
       (POST env cache payload tw fo).response.meta.url ≠ "" ∧
       (POST env cache payload tw fo).forwardRequest = none) := by
  rcases POST_shape env cache payload tw fo _ rfl with h | h | h | h
  · refine ⟨fun _ => ⟨h.2.2.2.1, h.2.2.2.2.1, h.2.2.2.2.2.2⟩, fun hc => ?_⟩
    rcases h.1 with he | he | he | he <;> rw [he] at hc <;> exact absurd hc (by decide)
  · refine ⟨fun hc => ?_, fun _ => ⟨h.2.2.2.1, h.2.2.2.2.1, h.2.2.2.2.2.2⟩⟩
    rcases h.1 with he | he | he <;> rcases hc with hc | hc | hc | hc <;>
      rw [he] at hc <;> exact absurd hc (by decide)
  · obtain ⟨st, stx, hdrs, rawText, parsed, elapsed, hfo, h1, h2, h3, h4, h5, h6⟩ := h
    refine ⟨fun hc => ?_, fun hc => ?_⟩
    · rw [h1] at hc
      rcases hc with hc | hc | hc | hc <;> exact absurd hc (by decide)
    · rw [h1] at hc
      exact absurd hc (by decide)
  · obtain ⟨m, tm, elapsed, hfo, h1, h2, h3, h4, h5, h6, h7, h8, h9⟩ := h
    refine ⟨fun hc => ?_, fun hc => ?_⟩
    · rw [h1] at hc
      rcases hc with hc | hc | hc | hc <;> exact absurd hc (by decide)
    · rw [h1] at hc
      exact absurd hc (by decide)

/-- Witness for the amended C8: the invalid_json rejection (unparseable
request body) reports durationMs 0, an empty url, and no forwarded
request. -/
theorem C8_pre_network_rejections_duration_and_url_witness :
    (POST envNone none none twIdle foOk).response.meta.durationMs = 0 ∧
    (POST envNone none none twIdle foOk).response.meta.url = "" ∧
    (POST envNone none none twIdle foOk).forwardRequest = none :=
  (C8_pre_network_rejections_duration_and_url envNone none none twIdle foOk).1
    (Or.inl rfl)

/-! ### Claim C5 (corrected) -/

/-- A request whose method is the lowercase string "get". -/
def pLowerGet : RequestShape := ⟨some "geocode", none, some "get", none, none, some "k", none⟩

/-- C5 counterexample: "get" is outside {GET, POST, PUT, PATCH, DELETE}
as a string value, yet the proxy uppercases it, accepts it, and forwards
the request instead of rejecting with invalid_method. -/
theorem C5_counterexample_lowercase_get :
    allowedMethods.contains "get" = false ∧
    (POST envNone none (some pLowerGet) twIdle foOk).response.errorCode = none ∧
    (POST envNone none (some pLowerGet) twIdle foOk).httpStatus = 200 ∧
    (POST envNone none (some pLowerGet) twIdle foOk).forwardRequest.isSome = true := by
  refine ⟨by decide, rfl, rfl, rfl⟩

/-- C5 (amended): for every parsed request that passes the path check
and whose method — defaulted to "GET" when absent or empty, then
uppercased — lies outside {GET, POST, PUT, PATCH, DELETE}, the proxy
returns the invalid_method envelope with status 400 and the request is
not forwarded (no exchange, no upstream call). -/
theorem C5_invalid_method_after_uppercasing
    (env : Env) (cache : Option CachedToken) (p : RequestShape)
    (tw : TokenWorld) (fo : ForwardOutcome)
    (hsafe : isPathSafe (normalizePath (jsOrStr p.path "")) = true)
    (hm : allowedMethods.contains (jsUpper (jsOrStr p.method "GET")) = false) :
    (POST env cache (some p) tw fo).response.errorCode = some "invalid_method" ∧
    (POST env cache (some p) tw fo).response.meta.status = 400 ∧
    (POST env cache (some p) tw fo).httpStatus = 400 ∧
    (POST env cache (some p) tw fo).exchangeCalls = 0 ∧
    (POST env cache (some p) tw fo).forwardRequest = none := by
  rw [POST_invalid_method env cache p tw fo hsafe hm]
  exact ⟨rfl, rfl, rfl, rfl, rfl⟩

/-- A request with the unsupported method TRACE. -/
def pTrace : RequestShape := ⟨some "geocode", none, some "TRACE", none, none, some "k", none⟩

/-- Witness for the amended C5 at the concrete method "TRACE". -/
theorem C5_invalid_method_after_uppercasing_witness :
    (POST envNone none (some pTrace) twIdle foOk).response.errorCode = some "invalid_method" ∧
    (POST envNone none (some pTrace) twIdle foOk).response.meta.status = 400 ∧
    (POST envNone none (some pTrace) twIdle foOk).httpStatus = 400 ∧
    (POST envNone none (some pTrace) twIdle foOk).exchangeCalls = 0 ∧
    (POST envNone none (some pTrace) twIdle foOk).forwardRequest = none :=
  C5_invalid_method_after_uppercasing envNone none pTrace twIdle foOk
    (by decide) (by decide)

/-! ### Claim C6 (corrected) -/

/-- A transport failure at exactly the 20 s timeout. -/
def foFail : ForwardOutcome := .failure "fetch failed" true 20000

/-- C6 counterexample: on a transport failure the envelope's raw text
and headers are empty, but its body is not empty — it is the JSON object
carrying the error message. -/
theorem C6_counterexample_failure_body_not_empty :
    (POST envNone none (some pKeyed) twIdle foFail).response.errorCode =
      some "request_failed" ∧
    (POST envNone none (some pKeyed) twIdle foFail).response.raw = "" ∧
    (POST envNone none (some pKeyed) twIdle foFail).response.meta.headers = [] ∧
    (POST envNone none (some pKeyed) twIdle foFail).response.body =
      JsonVal.jobj [("message", JsonVal.jstr "fetch failed")] ∧
    (POST envNone none (some pKeyed) twIdle foFail).response.body ≠ JsonVal.jstr "" ∧
    (POST envNone none (some pKeyed) twIdle foFail).response.body ≠ JsonVal.jobj [] ∧
    (POST envNone none (some pKeyed) twIdle foFail).response.body ≠ JsonVal.jnull := by
  have hbody : (POST envNone none (some pKeyed) twIdle foFail).response.body =
      JsonVal.jobj [("message", JsonVal.jstr "fetch failed")] := rfl
  refine ⟨rfl, rfl, rfl, hbody, ?_, ?_, ?_⟩ <;> rw [hbody] <;> simp

/-- C6 (amended): when the request reaches the upstream call and the
call fails in transport or is aborted by the 20 s timer, the envelope
has status 502, errorCode request_failed, empty raw text and headers, a
body holding the error-message object, and durationMs equal to the
elapsed time up to the failure point — which is at least 20 000 ms in
the timeout case, since the abort timer cannot fire earlier. -/
theorem C6_transport_failure_envelope
    (env : Env) (cache : Option CachedToken) (payload : Option RequestShape)
    (tw : TokenWorld) (m : String) (tm : Bool) (e : Int)
    (hwf : (ForwardOutcome.failure m tm e).wf)
    (hfwd : (POST env cache payload tw (.failure m tm e)).forwardRequest.isSome = true) :
    (POST env cache payload tw (.failure m tm e)).response.meta.status = 502 ∧
    (POST env cache payload tw (.failure m tm e)).httpStatus = 502 ∧
    (POST env cache payload tw (.failure m tm e)).response.errorCode =
      some "request_failed" ∧
    (POST env cache payload tw (.failure m tm e)).response.raw = "" ∧
    (POST env cache payload tw (.failure m tm e)).response.meta.headers = [] ∧
    (POST env cache payload tw (.failure m tm e)).response.body = msgObj m ∧
    (POST env cache payload tw (.failure m tm e)).response.meta.durationMs = e ∧
    (tm = true →
      (POST env cache payload tw (.failure m tm e)).response.meta.durationMs ≥ 20000) := by
  rcases POST_shape env cache payload tw (.failure m tm e) _ rfl with h | h | h | h
  · rw [h.2.2.2.2.2.2] at hfwd
    exact absurd hfwd (by decide)
  · rw [h.2.2.2.2.2.2] at hfwd
    exact absurd hfwd (by decide)
  · obtain ⟨st, stx, hdrs, rawText, parsed, elapsed, hfo, -⟩ := h
    exact absurd hfo (by simp)
  · obtain ⟨m2, tm2, e2, hfo, h1, h2, h3, h4, h5, h6, h7, h8, h9⟩ := h
    injection hfo with hm2 htm2 he2
    subst hm2; subst htm2; subst he2
    refine ⟨h2, h3, h1, h6, h7, h8, h5, fun htm => ?_⟩
    rw [h5]
    exact hwf.2 htm

/-- Witness for the amended C6: a key-authenticated request whose
upstream call aborts at the 20 000 ms timeout. -/
theorem C6_transport_failure_envelope_witness :
    (POST envNone none (some pKeyed) twIdle foFail).response.meta.status = 502 ∧
    (POST envNone none (some pKeyed) twIdle foFail).httpStatus = 502 ∧
    (POST envNone none (some pKeyed) twIdle foFail).response.errorCode =
      some "request_failed" ∧
    (POST envNone none (some pKeyed) twIdle foFail).response.raw = "" ∧
    (POST envNone none (some pKeyed) twIdle foFail).response.meta.headers = [] ∧
    (POST envNone none (some pKeyed) twIdle foFail).response.body = msgObj "fetch failed" ∧
    (POST envNone none (some pKeyed) twIdle foFail).response.meta.durationMs = 20000 ∧
    (true = true →
      (POST envNone none (some pKeyed) twIdle foFail).response.meta.durationMs ≥ 20000) :=
  C6_transport_failure_envelope envNone none (some pKeyed) twIdle "fetch failed" true 20000
    ⟨by decide, fun _ => by decide⟩ (by decide)

/-! ### Claim C4 (corrected) -/

/-- An environment holding both the static key and the full Entra
configuration. -/
def envKeyAndEntra : Env := ⟨none, some "k", none, some "t", some "c", some "s", none⟩

/-- A request whose auth override carries the empty-string apiKey and a
client ID. -/
def pEmptyKeyOverride : RequestShape :=
  ⟨some "geocode", none, some "GET", none, none, some "", some "mc"⟩

/-- A token world delivering a successful exchange at Date.now() = 7. -/
def twSuccess : TokenWorld := ⟨0, 7, .success "tok" 3600⟩

/-- C4 counterexample: an API key is available in the process defaults
(AZURE_MAPS_KEY = "k"), but an empty-string auth override shadows it
through nullish coalescing and is falsy, so the resolver performs a
token exchange and forwards with a Bearer Authorization header instead
of subscription-key. -/
theorem C4_counterexample_empty_override_shadows_default_key :
    jsTruthy envKeyAndEntra.azureMapsKey = true ∧
    (POST envKeyAndEntra none (some pEmptyKeyOverride) twSuccess foOk).exchangeCalls = 1 ∧
    (POST envKeyAndEntra none (some pEmptyKeyOverride) twSuccess foOk).forwardRequest =
      some ⟨"https://atlas.microsoft.com/geocode", "GET",
            [("Authorization", "Bearer tok"), ("x-ms-client-id", "mc")], none⟩ :=
  ⟨rfl, rfl, rfl⟩

/-- C4 (amended): whenever the resolved API key — the auth override when
the field is present, else the process default — is a non-empty string,
the resolver performs no token exchange even when a client ID is also
present, and the forwarded request carries the subscription-key header
and no Authorization header. -/
theorem C4_resolved_key_short_circuits
    (env : Env) (cache : Option CachedToken) (p : RequestShape)
    (tw : TokenWorld) (fo : ForwardOutcome) (k nb : String)
    (hk : p.authApiKey.or env.azureMapsKey = some k) (hknz : ¬ k = "")
    (hsafe : isPathSafe (normalizePath (jsOrStr p.path "")) = true)
    (hm : allowedMethods.contains (jsUpper (jsOrStr p.method "GET")) = true)
    (hb : routeNormalizeBase
            ((p.baseUrl.or env.azureMapsBaseUrl).getD "https://atlas.microsoft.com") = some nb) :
    (POST env cache (some p) tw fo).exchangeCalls = 0 ∧
    (POST env cache (some p) tw fo).forwardRequest =
      some ⟨nb ++ "/" ++ normalizePath (jsOrStr p.path "") ++
              (if buildQueryString (p.params.getD []) = "" then ""
               else "?" ++ buildQueryString (p.params.getD [])),
            jsUpper (jsOrStr p.method "GET"),
            [("subscription-key", k)] ++
              (if (jsRequestBody p.body).isSome then [("content-type", "application/json")]
               else []),
            jsRequestBody p.body⟩ ∧
    (∀ v, ("Authorization", v) ∉
       [("subscription-key", k)] ++
         (if (jsRequestBody p.body).isSome then [("content-type", "application/json")]
          else [])) := by
  rw [POST_reaches_credentialStep env cache p tw fo nb hsafe hm hb, hk,
    credentialStep_key hknz]
  refine ⟨?_, ?_, ?_⟩
  · cases fo <;> rfl
  · cases fo <;> rfl
  · intro v hv
    rcases List.mem_append.mp hv with h | h
    · simp at h
    · by_cases hbod : (jsRequestBody p.body).isSome = true
      · rw [if_pos hbod] at h
        simp at h
      · rw [if_neg hbod] at h
        simp at h

/-- The key-auth scenario request of the C4 witness. -/
def pScenario : RequestShape :=
  ⟨some "reverseGeocode", none, some "GET", some "https://atlas.microsoft.com", none,
   some "k", none⟩

/-- Witness for the amended C4 at the claim's scenario: path
reverseGeocode, method GET, base https://atlas.microsoft.com, key "k". -/
theorem C4_resolved_key_short_circuits_witness :
    (POST envNone none (some pScenario) twIdle foOk).exchangeCalls = 0 ∧
    (POST envNone none (some pScenario) twIdle foOk).forwardRequest =
      some ⟨"https://atlas.microsoft.com/reverseGeocode", "GET",
            [("subscription-key", "k")], none⟩ := by
  have h := C4_resolved_key_short_circuits envNone none pScenario twIdle foOk "k"
    "https://atlas.microsoft.com" rfl (by decide) (by decide) (by decide) (by decide)
  refine ⟨h.1, ?_⟩
  rw [h.2.1]
  rfl

end MapsProxy
